import Mathlib

/-!
# Verification of the spending-app synchronization and sorting logic

Shallow embedding of the spendings screen (`SpendingsScreen`, two variants
sharing identical handlers) and of the shared category store
(`CategoryProvider` in `CategoryContext.tsx`).

Conventions of the embedding:
* JavaScript numbers carrying monetary amounts are modelled as `ℚ`; the
  operations the code performs on them (`Math.abs`, negation, subtraction,
  comparison with `0`) are sign- and order-exact on IEEE doubles for the
  values the app handles, so `ℚ` is a faithful carrier for the properties
  proved here.
* `parseFloat` is modelled by `jsParseFloat`: leading whitespace is skipped,
  then the longest prefix matching an optionally signed decimal literal
  (with optional `e`/`E` exponent) is converted; `none` models `NaN`.
  The special forms `Infinity`/`-Infinity` are outside the model.
* `String.prototype.trim` is modelled by `jsTrim` (drop whitespace on both
  ends); the JS and Lean whitespace sets agree on the characters relevant
  here.
* JS truthiness on the `categoryId : number | null` form field is modelled
  by `truthyCategoryId`: `null` and `0` are falsy, every other number truthy.
* `Array.prototype.sort` (stable since ES2019) is modelled by `stableSort`,
  a stable insertion sort; for a consistent comparator (the only kind the
  code uses) every stable sort produces the same output, so the model is
  exact.
* `String.prototype.localeCompare` is modelled by `localeCompare`, the
  code-point lexicographic three-way comparison (the spec itself reads the
  comparator as plain lexicographic comparison).
* Network effects are made explicit: a handler is a pure function from the
  form/screen state plus the environment's responses (`FetchOutcome`,
  `DeleteEnv`) to an outcome value; an outcome of `validationError` /
  `silentAbort` by construction carries no request, so "no network call is
  performed" is structural.
-/

/-- A category record, as in the `Category` interface of the source. -/
structure Category where
  categoryId : Int
  name : String
deriving Repr, DecidableEq

/-- A spending record, as in the `Spending` interface of the source.
`dateOfSpending` is kept as the raw string; where the code calls
`new Date(s).getTime()` the embedding takes the parse as an explicit
`getTime : String → Int` parameter. -/
structure Spending where
  spendingId : String
  amount : ℚ
  description : String
  categoryId : Int
  dateOfSpending : String
  currency : Option String
deriving Repr, DecidableEq

/-- Whitespace predicate shared by the models of `trim` and `parseFloat`. -/
def jsWhitespace (c : Char) : Bool :=
  c.isWhitespace

/-- Model of `String.prototype.trim`: drop whitespace from both ends. -/
def jsTrim (s : String) : String :=
  String.mk (((s.toList.dropWhile jsWhitespace).reverse.dropWhile jsWhitespace).reverse)

/-- Numeric value of a digit string (most significant digit first). -/
def natOfDigits (ds : List Char) : Nat :=
  ds.foldl (fun n c => 10 * n + (c.toNat - 48)) 0

/-- Parse an optionally signed digit run, for the exponent part of a decimal
literal; `none` when no digits follow (JS then ignores the exponent part). -/
def parseSignedDigits (cs : List Char) : Option Int :=
  match cs with
  | '-' :: rest =>
      if rest.takeWhile Char.isDigit = [] then none
      else some (-(natOfDigits (rest.takeWhile Char.isDigit) : Int))
  | '+' :: rest =>
      if rest.takeWhile Char.isDigit = [] then none
      else some ((natOfDigits (rest.takeWhile Char.isDigit) : Int))
  | _ =>
      if cs.takeWhile Char.isDigit = [] then none
      else some ((natOfDigits (cs.takeWhile Char.isDigit) : Int))

/-- Convert the longest decimal-literal prefix of a character list, after
whitespace has already been skipped. `none` models `NaN`. -/
def parseFloatList (cs : List Char) : Option ℚ :=
  let signAndRest : ℚ × List Char :=
    match cs with
    | '-' :: rest => (-1, rest)
    | '+' :: rest => (1, rest)
    | _ => (1, cs)
  let sign := signAndRest.1
  let cs1 := signAndRest.2
  let intDigits := cs1.takeWhile Char.isDigit
  let cs2 := cs1.dropWhile Char.isDigit
  let fracAndRest : List Char × List Char :=
    match cs2 with
    | '.' :: rest => (rest.takeWhile Char.isDigit, rest.dropWhile Char.isDigit)
    | _ => ([], cs2)
  let fracDigits := fracAndRest.1
  let cs3 := fracAndRest.2
  if intDigits = [] ∧ fracDigits = [] then none
  else
    let mantissa : ℚ :=
      (natOfDigits intDigits : ℚ) + (natOfDigits fracDigits : ℚ) / ((10 : ℚ) ^ fracDigits.length)
    let expVal : Int :=
      match cs3 with
      | 'e' :: rest => (parseSignedDigits rest).getD 0
      | 'E' :: rest => (parseSignedDigits rest).getD 0
      | _ => 0
    some (sign * mantissa * (10 : ℚ) ^ expVal)

/-- Model of the JS global `parseFloat`; `none` models `NaN`. -/
def jsParseFloat (s : String) : Option ℚ :=
  parseFloatList (s.toList.dropWhile jsWhitespace)

/-- JS truthiness of the `categoryId : number | null` form field:
`null` and `0` are falsy. -/
def truthyCategoryId : Option Int → Bool
  | none => false
  | some n => n ≠ 0

/-- Model of `Math.abs` on the rational carrier (equal to `|q|`, see
`jsAbs_eq_abs`). -/
def jsAbs (q : ℚ) : ℚ :=
  if q < 0 then -q else q

unseal Rat.add Rat.sub Rat.mul Rat.inv in
example : jsParseFloat "42.50" = some (85 / 2 : ℚ) := by decide

unseal Rat.add Rat.sub Rat.mul Rat.inv in
example : jsParseFloat "10" = some 10 := by decide

example : jsParseFloat "" = none := by decide

unseal Rat.add Rat.sub Rat.mul Rat.inv in
example : jsParseFloat "  -3.5e1" = some (-35 : ℚ) := by decide

unseal Rat.add Rat.sub Rat.mul Rat.inv in
example : jsParseFloat "5abc" = some 5 := by decide

example : jsTrim "  a " = "a" := by decide

/-- The transaction-type flag of the add/edit forms
(`type: "spending" | "income"`). -/
inductive TxType where
  | spending
  | income
deriving Repr, DecidableEq

/-- The `newSpending` / `editSpending` form state. -/
structure SpendingForm where
  description : String
  amount : String
  categoryId : Option Int
  currency : String
  txType : TxType
deriving Repr, DecidableEq

/-- The JSON body of the `POST /spendings` request built by
`handleAddSpending`. -/
structure SpendingPostBody where
  description : String
  amount : ℚ
  categoryId : Option Int
  currency : String
  dateOfSpending : String
deriving Repr, DecidableEq

/-- Outcome of `handleAddSpending` up to the point where the network request
is (or is not) issued: a `validationError` is shown via `Alert.alert` and the
handler returns without any fetch; `request` carries the body of the `POST`
that is issued. -/
inductive AddOutcome where
  | validationError (msg : String)
  | request (body : SpendingPostBody)
deriving Repr, DecidableEq

/-- Embedding of `handleAddSpending` (source lines 181-213 and 1037-1069 of
the spendings screen; the two variants are identical).  `now` stands for
`new Date().toISOString()`. -/
def handleAddSpending (form : SpendingForm) (now : String) : AddOutcome :=
  if jsTrim form.amount = "" ∨ truthyCategoryId form.categoryId = false then
    .validationError "Please fill in all fields"
  else
    match jsParseFloat form.amount with
    | none => .validationError "Please enter a valid amount"
    | some amount =>
      if amount ≤ 0 then
        .validationError "Please enter a valid amount"
      else
        let finalAmount := if form.txType = TxType.income then jsAbs amount else -(jsAbs amount)
        .request
          { description := jsTrim form.description
            amount := finalAmount
            categoryId := form.categoryId
            currency := form.currency
            dateOfSpending := now }

/-- The JSON body of the `PUT /spendings` request built by
`handleEditSpending`; `none` models a field that is `undefined` and hence
dropped by `JSON.stringify`, so the server performs a partial update. -/
structure SpendingPutBody where
  spendingId : String
  description : Option String
  amount : Option ℚ
  categoryId : Option Int
  currency : Option String
  dateOfSpending : Option String
deriving Repr, DecidableEq

/-- Outcome of `handleEditSpending` up to the network request: `noEditing`
models the `editingSpending === null` early return, `silentAbort` the early
return taken when `parseFloat` yields `NaN` (no alert, no request), and
`request` carries the body of the `PUT` that is issued. -/
inductive EditOutcome where
  | noEditing
  | silentAbort
  | request (body : SpendingPutBody)
deriving Repr, DecidableEq

/-- Embedding of `handleEditSpending` (source lines 276-335 and 1132-1191;
the two variants are identical).  `editing` is the `editingSpending` state,
`form` the `editSpending` state. -/
def handleEditSpending (editing : Option Spending) (form : SpendingForm) : EditOutcome :=
  match editing with
  | none => .noEditing
  | some sp =>
    match jsParseFloat form.amount with
    | none => .silentAbort
    | some amount =>
      let finalAmount := if form.txType = TxType.income then jsAbs amount else -(jsAbs amount)
      .request
        { spendingId := sp.spendingId
          description := if jsTrim form.description = "" then none else some (jsTrim form.description)
          amount := if finalAmount = 0 then none else some finalAmount
          categoryId :=
            match form.categoryId with
            | none => none
            | some n => if n = 0 then none else some n
          currency := if form.currency = "" then none else some form.currency
          dateOfSpending := if sp.dateOfSpending = "" then none else some sp.dateOfSpending }

/-- The observable actions of `handleDeleteSpending`, in program order:
the `DELETE` request, the local `setSpendings(prev.filter(...))` update, and
the follow-up `fetchData()` reload. -/
inductive DeleteEvent where
  | deleteRequest (spendingId : String)
  | localRemove (spendingId : String)
  | reload
deriving Repr, DecidableEq

/-- Environment of one `handleDeleteSpending` run: `deleteOk` is whether the
`DELETE` fetch resolves with `response.ok` (`false` also covers a rejected
fetch), and `reloadResult` is what the follow-up `fetchData` leaves in
`spendings` (`none` models a failed reload, which keeps the list as is). -/
structure DeleteEnv where
  deleteOk : Bool
  reloadResult : Option (List Spending)
deriving Repr, DecidableEq

/-- Embedding of `handleDeleteSpending` (source lines 243-274 and 1099-1130;
the two variants are identical).  Returns the final local `spendings` list
together with the ordered trace of observable actions.  The source issues the
`DELETE` fetch first; only when `response.ok` does it filter the local list
and call `fetchData()`; on failure it leaves the list untouched and performs
no reload. -/
def handleDeleteSpending (env : DeleteEnv) (spendings : List Spending)
    (spendingId : String) : List Spending × List DeleteEvent :=
  if env.deleteOk then
    let afterRemove := spendings.filter (fun s => s.spendingId ≠ spendingId)
    (match env.reloadResult with
     | some server => server
     | none => afterRemove,
     [.deleteRequest spendingId, .localRemove spendingId, .reload])
  else
    (spendings, [.deleteRequest spendingId])

/-- Embedding of `getCategoryName` (source lines 166-169 and 1022-1025):
`categories.find(...)` with the `|| "Unknown"` fallback; the fallback also
fires for a found category whose name is the empty string (JS falsiness). -/
def getCategoryName (categories : List Category) (categoryId : Int) : String :=
  match categories.find? (fun cat => cat.categoryId = categoryId) with
  | some cat => if cat.name = "" then "Unknown" else cat.name
  | none => "Unknown"

/-- The sort keys (`SortOption` in the source). -/
inductive SortOption where
  | date
  | amount
  | category
deriving Repr, DecidableEq

/-- The sort directions (`SortDirection` in the source). -/
inductive SortDirection where
  | asc
  | desc
deriving Repr, DecidableEq

/-- Model of `String.prototype.localeCompare` as the code-point lexicographic
three-way comparison. -/
def localeCompare (a b : String) : ℚ :=
  if a < b then -1 else if a = b then 0 else 1

/-- Stable insertion of `a` into `l`: `a` goes in front of the first element
`b` that does not satisfy `cmp b a < 0`, so among comparator-equal elements
the inserted element stays behind the ones already in `l`. -/
def insertSorted {α : Type} (cmp : α → α → ℚ) (a : α) : List α → List α
  | [] => [a]
  | b :: l => if cmp b a < 0 then b :: insertSorted cmp a l else a :: b :: l

/-- Stable insertion sort; models `Array.prototype.sort` (stable per
ES2019).  For a consistent comparator every stable sort algorithm computes
the same list, so the choice of insertion sort is immaterial. -/
def stableSort {α : Type} (cmp : α → α → ℚ) : List α → List α
  | [] => []
  | a :: l => insertSorted cmp a (stableSort cmp l)

/-- The comparator built inside `getSortedSpendings` (source lines 352-370):
a three-way `comparison` selected by `sortBy`, negated when the direction is
descending. -/
def spendingComparator (categories : List Category) (getTime : String → Int)
    (sortBy : SortOption) (sortDirection : SortDirection) (a b : Spending) : ℚ :=
  let comparison : ℚ :=
    match sortBy with
    | .date => ((getTime a.dateOfSpending - getTime b.dateOfSpending : Int) : ℚ)
    | .amount => a.amount - b.amount
    | .category =>
        localeCompare (getCategoryName categories a.categoryId)
          (getCategoryName categories b.categoryId)
  match sortDirection with
  | .asc => comparison
  | .desc => -comparison

/-- Embedding of `getSortedSpendings` (source lines 349-373 and 1205-1229):
copies the list (`[...spendings]`) and sorts the copy with the comparator;
the stored list is untouched (the embedding returns a new list and cannot
mutate its argument, mirroring the copy-then-sort of the source). -/
def getSortedSpendings (categories : List Category) (getTime : String → Int)
    (sortBy : SortOption) (sortDirection : SortDirection)
    (spendings : List Spending) : List Spending :=
  stableSort (spendingComparator categories getTime sortBy sortDirection) spendings

/-- Embedding of `handleSort` (source lines 375-384): the new
`(sortBy, sortDirection)` pair after pressing the header button `option`. -/
def handleSort (sortBy : SortOption) (sortDirection : SortDirection)
    (option : SortOption) : SortOption × SortDirection :=
  if sortBy = option then
    (sortBy, if sortDirection = SortDirection.asc then SortDirection.desc else SortDirection.asc)
  else
    (option, SortDirection.desc)

/-- The state held by `CategoryProvider` in `CategoryContext.tsx`: the
shared category list and the monotonic version counter. -/
structure CategoryStore where
  categories : List Category
  categoriesVersion : Nat
deriving Repr, DecidableEq

/-- The store state on mount: `useState<Category[]>([])` and `useState(0)`. -/
def initialCategoryStore : CategoryStore :=
  { categories := [], categoriesVersion := 0 }

/-- Embedding of the provider's `setCategories` setter: replaces the list
wholesale, leaving the version counter alone. -/
def setCategories (cats : List Category) (st : CategoryStore) : CategoryStore :=
  { st with categories := cats }

/-- Embedding of `refreshCategories` (CategoryContext.tsx lines 33-35):
`setCategoriesVersion(prev => prev + 1)`. -/
def refreshCategories (st : CategoryStore) : CategoryStore :=
  { st with categoriesVersion := st.categoriesVersion + 1 }

/-- The operations the provider exposes on the shared store. -/
inductive StoreOp where
  | setCategories (cats : List Category)
  | refreshCategories
deriving Repr, DecidableEq

/-- Apply one store operation. -/
def applyStoreOp (op : StoreOp) (st : CategoryStore) : CategoryStore :=
  match op with
  | .setCategories cats => setCategories cats st
  | .refreshCategories => refreshCategories st

/-- Apply a sequence of store operations, oldest first. -/
def applyStoreOps (ops : List StoreOp) (st : CategoryStore) : CategoryStore :=
  ops.foldl (fun s op => applyStoreOp op s) st

/-- Result of one `fetch(...)` plus the `response.ok` check and body parse:
`networkError msg` models a rejected fetch (`msg` the thrown `Error`'s
message), `httpError status` a resolved response with `ok` false, and
`success body` an ok response with parsed JSON body. -/
inductive FetchOutcome (α : Type) where
  | networkError (msg : String)
  | httpError (status : Nat)
  | success (body : α)
deriving Repr, DecidableEq

/-- Whether the outcome takes the `catch` path of `fetchData`. -/
def FetchOutcome.failed {α : Type} : FetchOutcome α → Bool
  | .networkError _ => true
  | .httpError _ => true
  | .success _ => false

/-- The screen state touched by `fetchData`: the local `spendings` list, the
shared `categories` (written by the first variant via `setCategories`), and
the `error` / `loading` / `refreshing` flags. -/
structure ScreenState where
  spendings : List Spending
  categories : List Category
  error : Option String
  loading : Bool
  refreshing : Bool
deriving Repr, DecidableEq

/-- Embedding of `fetchData` of the first screen variant (source lines
110-145): clear the error, fetch spendings, on `!ok` throw
`Failed to fetch spendings: status`; fetch categories, on `!ok` throw
`Failed to fetch categories: status`; only then `setSpendings` and
`setCategories`; the `catch` stores the error message, the `finally`
clears `loading` and `refreshing`. -/
def fetchData (spendingsRes : FetchOutcome (List Spending))
    (categoriesRes : FetchOutcome (List Category)) (st : ScreenState) : ScreenState :=
  let st0 := { st with error := none }
  let st1 :=
    match spendingsRes with
    | .networkError msg => { st0 with error := some msg }
    | .httpError status =>
        { st0 with error := some ("Failed to fetch spendings: " ++ toString status) }
    | .success spendingsData =>
      match categoriesRes with
      | .networkError msg => { st0 with error := some msg }
      | .httpError status =>
          { st0 with error := some ("Failed to fetch categories: " ++ toString status) }
      | .success categoriesData =>
          { st0 with spendings := spendingsData, categories := categoriesData }
  { st1 with loading := false, refreshing := false }

/-- Embedding of `fetchData` of the second screen variant (source lines
977-1001), which fetches only spendings and leaves the shared categories to
the context. -/
def fetchDataShared (spendingsRes : FetchOutcome (List Spending))
    (st : ScreenState) : ScreenState :=
  let st0 := { st with error := none }
  let st1 :=
    match spendingsRes with
    | .networkError msg => { st0 with error := some msg }
    | .httpError status =>
        { st0 with error := some ("Failed to fetch spendings: " ++ toString status) }
    | .success spendingsData => { st0 with spendings := spendingsData }
  { st1 with loading := false, refreshing := false }

/-! ## Claims as stated in the spec, for the claims the code refutes

The following `Prop`s transcribe the spec's wording (not the code); each is
refuted below at a concrete input. -/

/-- C2 as stated: `delete(id)` first performs the optimistic local removal,
then issues the delete call, and reloads regardless of the outcome. -/
def deleteAsStated : Prop :=
  ∀ (env : DeleteEnv) (spendings : List Spending) (id : String),
    (handleDeleteSpending env spendings id).2.take 2 =
      [DeleteEvent.localRemove id, DeleteEvent.deleteRequest id] ∧
    DeleteEvent.reload ∈ (handleDeleteSpending env spendings id).2

/-- C3 as stated: for every list, sorting by amount ascending and descending
yields element-for-element reverses of each other. -/
def sortAmountReverseAsStated : Prop :=
  ∀ (cats : List Category) (gt : String → Int) (l : List Spending),
    getSortedSpendings cats gt SortOption.amount SortDirection.desc l =
      (getSortedSpendings cats gt SortOption.amount SortDirection.asc l).reverse

/-- C6 as stated: add fails with a validation error exactly when the amount
does not parse as a positive number or no category is selected (`null`). -/
def addValidationAsStated : Prop :=
  ∀ (form : SpendingForm) (now : String),
    (∃ msg, handleAddSpending form now = AddOutcome.validationError msg) ↔
      ((∀ q : ℚ, jsParseFloat form.amount = some q → q ≤ 0) ∨
        form.categoryId = none)

/-- C7 as stated (validation part): edit fails before any network call
whenever the amount does not parse as a positive number or no category is
selected, so no update request is ever issued for such a form. -/
def editValidationAsStated : Prop :=
  ∀ (editing : Option Spending) (form : SpendingForm) (body : SpendingPutBody),
    ((∀ q : ℚ, jsParseFloat form.amount = some q → q ≤ 0) ∨
      form.categoryId = none) →
    handleEditSpending editing form ≠ EditOutcome.request body

/-! ## Shared lemmas about the stable sort -/

theorem insertSorted_perm {α : Type} (cmp : α → α → ℚ) (a : α) :
    ∀ l : List α, (insertSorted cmp a l).Perm (a :: l) := by
  intro l
  induction l with
  | nil => exact List.Perm.refl _
  | cons b t ih =>
    rw [insertSorted]
    by_cases h : cmp b a < 0
    · simp only [if_pos h]
      exact (ih.cons b).trans (List.Perm.swap a b t)
    · simp only [if_neg h]
      exact List.Perm.refl _

theorem stableSort_perm {α : Type} (cmp : α → α → ℚ) :
    ∀ l : List α, (stableSort cmp l).Perm l := by
  intro l
  induction l with
  | nil => exact List.Perm.refl _
  | cons a t ih =>
    rw [stableSort]
    exact (insertSorted_perm cmp a (stableSort cmp t)).trans (ih.cons a)

theorem mem_insertSorted {α : Type} {cmp : α → α → ℚ} {a x : α} {l : List α}
    (h : x ∈ insertSorted cmp a l) : x = a ∨ x ∈ l := by
  have := (insertSorted_perm cmp a l).mem_iff.mp h
  simpa using this

theorem pairwise_insertSorted {α : Type} (cmp : α → α → ℚ)
    (hskew : ∀ a b, cmp a b = -cmp b a)
    (htrans : ∀ a b c, cmp a b ≤ 0 → cmp b c ≤ 0 → cmp a c ≤ 0)
    (a : α) :
    ∀ l : List α, l.Pairwise (fun x y => cmp x y ≤ 0) →
      (insertSorted cmp a l).Pairwise (fun x y => cmp x y ≤ 0) := by
  intro l
  induction l with
  | nil =>
    intro _
    exact List.pairwise_singleton _ a
  | cons b t ih =>
    intro hl
    rw [List.pairwise_cons] at hl
    obtain ⟨hbt, ht⟩ := hl
    rw [insertSorted]
    by_cases h : cmp b a < 0
    · simp only [if_pos h]
      rw [List.pairwise_cons]
      refine ⟨?_, ih ht⟩
      intro x hx
      rcases mem_insertSorted hx with rfl | hx
      · exact le_of_lt h
      · exact hbt x hx
    · simp only [if_neg h]
      have hab : cmp a b ≤ 0 := by
        have hba : 0 ≤ cmp b a := le_of_not_lt h
        rw [hskew a b]
        linarith
      rw [List.pairwise_cons]
      refine ⟨?_, ?_⟩
      · intro x hx
        rcases List.mem_cons.mp hx with rfl | hx
        · exact hab
        · exact htrans a b x hab (hbt x hx)
      · rw [List.pairwise_cons]
        exact ⟨hbt, ht⟩

theorem pairwise_stableSort {α : Type} (cmp : α → α → ℚ)
    (hskew : ∀ a b, cmp a b = -cmp b a)
    (htrans : ∀ a b c, cmp a b ≤ 0 → cmp b c ≤ 0 → cmp a c ≤ 0) :
    ∀ l : List α, (stableSort cmp l).Pairwise (fun x y => cmp x y ≤ 0) := by
  intro l
  induction l with
  | nil => exact List.Pairwise.nil
  | cons a t ih =>
    rw [stableSort]
    exact pairwise_insertSorted cmp hskew htrans a _ ih

/-! ## Comparator facts -/

theorem localeCompare_skew (a b : String) : localeCompare a b = -localeCompare b a := by
  rcases lt_trichotomy a b with h | h | h
  · simp [localeCompare, h, asymm h, h.ne, h.ne']
  · subst h
    simp [localeCompare]
  · simp [localeCompare, h, asymm h, h.ne, h.ne']

theorem localeCompare_nonpos_iff (a b : String) : localeCompare a b ≤ 0 ↔ a ≤ b := by
  rcases lt_trichotomy a b with h | h | h
  · simp [localeCompare, h, asymm h, h.ne, h.ne', le_of_lt h]
  · subst h
    simp [localeCompare]
  · simp [localeCompare, h, asymm h, h.ne, h.ne', not_le.mpr h]

theorem localeCompare_nonneg_iff (a b : String) : 0 ≤ localeCompare a b ↔ b ≤ a := by
  rw [localeCompare_skew, neg_nonneg, localeCompare_nonpos_iff]

theorem spendingComparator_skew (cats : List Category) (gt : String → Int)
    (key : SortOption) (dir : SortDirection) (a b : Spending) :
    spendingComparator cats gt key dir a b = -spendingComparator cats gt key dir b a := by
  cases key <;> cases dir <;> simp only [spendingComparator] <;>
    first
      | (exact localeCompare_skew _ _)
      | (rw [localeCompare_skew]; try ring)
      | (push_cast; ring)
      | ring

theorem spendingComparator_trans (cats : List Category) (gt : String → Int)
    (key : SortOption) (dir : SortDirection) (a b c : Spending)
    (h1 : spendingComparator cats gt key dir a b ≤ 0)
    (h2 : spendingComparator cats gt key dir b c ≤ 0) :
    spendingComparator cats gt key dir a c ≤ 0 := by
  cases key <;> cases dir <;> simp only [spendingComparator] at h1 h2 ⊢ <;>
    first
      | (rw [localeCompare_nonpos_iff] at h1 h2 ⊢; exact le_trans h1 h2)
      | (rw [neg_nonpos] at h1 h2 ⊢
         rw [localeCompare_nonneg_iff] at h1 h2 ⊢
         exact le_trans h2 h1)
      | (push_cast at h1 h2 ⊢; linarith)
      | linarith

/-! ## Facts about the trim and parseFloat models -/

theorem dropWhile_head_false {p : Char → Bool} :
    ∀ (l : List Char) {c : Char} {t : List Char}, l.dropWhile p = c :: t → p c = false := by
  intro l
  induction l with
  | nil =>
    intro c t h
    simp [List.dropWhile] at h
  | cons a l ih =>
    intro c t h
    rw [List.dropWhile_cons] at h
    by_cases hpa : p a
    · rw [if_pos hpa] at h
      exact ih h
    · rw [if_neg hpa] at h
      cases h
      exact eq_false_of_ne_true hpa

theorem jsTrim_empty_parse_none {s : String} (h : jsTrim s = "") :
    jsParseFloat s = none := by
  have hl : ((s.toList.dropWhile jsWhitespace).reverse.dropWhile jsWhitespace).reverse = [] :=
    congrArg String.data h
  rw [List.reverse_eq_nil_iff] at hl
  have hm : s.toList.dropWhile jsWhitespace = [] := by
    cases hcase : s.toList.dropWhile jsWhitespace with
    | nil => rfl
    | cons c t =>
      have hcfalse : jsWhitespace c = false := dropWhile_head_false s.toList hcase
      have hall : ∀ x ∈ (c :: t).reverse, jsWhitespace x = true := by
        rw [← hcase]
        intro x hx
        exact List.dropWhile_eq_nil_iff.mp (by rw [hcase] at hl ⊢; exact hl) x hx
      have : jsWhitespace c = true := hall c (by simp)
      rw [hcfalse] at this
      cases this
  rw [jsParseFloat, hm]
  rfl

theorem jsAbs_eq_abs (q : ℚ) : jsAbs q = |q| := by
  unfold jsAbs
  by_cases h : q < 0
  · rw [if_pos h, abs_of_neg h]
  · rw [if_neg h, abs_of_nonneg (le_of_not_lt h)]

/-! ## Claim theorems -/

/-- C4: selecting the currently selected sort key keeps the key and toggles
the direction between ascending and descending (toggling twice restores it),
while selecting a different key makes it the selected key and resets the
direction to descending. -/
theorem handleSort_toggle_and_reset (sortBy option : SortOption) (dir : SortDirection) :
    (sortBy = option →
      (handleSort sortBy dir option).1 = sortBy ∧
      (handleSort sortBy dir option).2 ≠ dir ∧
      handleSort sortBy (handleSort sortBy dir option).2 option = (sortBy, dir)) ∧
    (sortBy ≠ option → handleSort sortBy dir option = (option, SortDirection.desc)) := by
  constructor
  · intro h
    subst h
    cases dir <;> simp [handleSort]
  · intro h
    simp [handleSort, h]

/-- Witness for C4 at a concrete sort state. -/
theorem handleSort_toggle_and_reset_witness :
    ((handleSort SortOption.date SortDirection.desc SortOption.date).1 = SortOption.date ∧
      (handleSort SortOption.date SortDirection.desc SortOption.date).2 ≠ SortDirection.desc ∧
      handleSort SortOption.date
          (handleSort SortOption.date SortDirection.desc SortOption.date).2 SortOption.date =
        (SortOption.date, SortDirection.desc)) ∧
    handleSort SortOption.date SortDirection.desc SortOption.amount =
      (SortOption.amount, SortDirection.desc) := by
  constructor
  · exact (handleSort_toggle_and_reset SortOption.date SortOption.date SortDirection.desc).1 rfl
  · exact (handleSort_toggle_and_reset SortOption.date SortOption.amount SortDirection.desc).2
      (by decide)

/-- Monotonicity of the version counter under any operation sequence
(helper for C5). -/
theorem applyStoreOps_version_mono (ops : List StoreOp) :
    ∀ st : CategoryStore,
      st.categoriesVersion ≤ (applyStoreOps ops st).categoriesVersion := by
  induction ops with
  | nil =>
    intro st
    exact le_refl _
  | cons op rest ih =>
    intro st
    have h1 : st.categoriesVersion ≤ (applyStoreOp op st).categoriesVersion := by
      cases op <;> simp [applyStoreOp, setCategories, refreshCategories]
    have hstep : applyStoreOps (op :: rest) st = applyStoreOps rest (applyStoreOp op st) := rfl
    rw [hstep]
    exact le_trans h1 (ih (applyStoreOp op st))

/-- C5: `refreshCategories` increments the version counter by exactly one
and leaves the category list unchanged, and over any sequence of store
operations the version counter never decreases (in particular it never
resets below a previously observed value). -/
theorem refreshCategories_version (st : CategoryStore) :
    (refreshCategories st).categoriesVersion = st.categoriesVersion + 1 ∧
    (refreshCategories st).categories = st.categories ∧
    ∀ ops : List StoreOp,
      st.categoriesVersion ≤ (applyStoreOps ops st).categoriesVersion := by
  exact ⟨rfl, rfl, fun ops => applyStoreOps_version_mono ops st⟩

/-- C9: when the spendings fetch fails (rejects or returns a non-ok status),
or, in the first variant, when the categories fetch fails, `fetchData` leaves
the previously loaded lists unchanged and reports an error state; the same
holds for the shared-store variant. -/
theorem fetchData_failure_preserves (spendingsRes : FetchOutcome (List Spending))
    (categoriesRes : FetchOutcome (List Category)) (st : ScreenState) :
    ((spendingsRes.failed = true ∨ categoriesRes.failed = true) →
      (fetchData spendingsRes categoriesRes st).spendings = st.spendings ∧
      (fetchData spendingsRes categoriesRes st).categories = st.categories ∧
      ∃ msg, (fetchData spendingsRes categoriesRes st).error = some msg) ∧
    (spendingsRes.failed = true →
      (fetchDataShared spendingsRes st).spendings = st.spendings ∧
      (fetchDataShared spendingsRes st).categories = st.categories ∧
      ∃ msg, (fetchDataShared spendingsRes st).error = some msg) := by
  constructor
  · intro h
    cases spendingsRes <;> cases categoriesRes <;>
      simp [fetchData, FetchOutcome.failed] at h ⊢
  · intro h
    cases spendingsRes <;> simp [fetchDataShared, FetchOutcome.failed] at h ⊢

/-- Witness for C9: a rejected spendings fetch against a screen that already
holds one spending. -/
theorem fetchData_failure_preserves_witness :
    (fetchData (FetchOutcome.networkError "boom") (FetchOutcome.success [])
        ⟨[⟨"a", 5, "", 1, "d", none⟩], [⟨1, "Food"⟩], none, false, false⟩).spendings =
      [⟨"a", 5, "", 1, "d", none⟩] ∧
    (fetchData (FetchOutcome.networkError "boom") (FetchOutcome.success [])
        ⟨[⟨"a", 5, "", 1, "d", none⟩], [⟨1, "Food"⟩], none, false, false⟩).categories =
      [⟨1, "Food"⟩] ∧
    ∃ msg, (fetchData (FetchOutcome.networkError "boom") (FetchOutcome.success [])
        ⟨[⟨"a", 5, "", 1, "d", none⟩], [⟨1, "Food"⟩], none, false, false⟩).error = some msg :=
  (fetchData_failure_preserves (FetchOutcome.networkError "boom") (FetchOutcome.success [])
      ⟨[⟨"a", 5, "", 1, "d", none⟩], [⟨1, "Food"⟩], none, false, false⟩).1 (Or.inl rfl)

/-- C1: whenever `handleAddSpending` passes validation (the amount parses as
a positive number and a truthy category is selected), the request it issues
carries the signed amount `+|q|` for income and `-|q|` for spending, along
with the trimmed description, the selected category, the chosen currency and
the current date. -/
theorem handleAddSpending_signed_amount (form : SpendingForm) (now : String) (q : ℚ)
    (hq : jsParseFloat form.amount = some q) (hpos : 0 < q)
    (hcat : truthyCategoryId form.categoryId = true) :
    handleAddSpending form now = AddOutcome.request
      { description := jsTrim form.description
        amount := if form.txType = TxType.income then |q| else -|q|
        categoryId := form.categoryId
        currency := form.currency
        dateOfSpending := now } := by
  have htrim : jsTrim form.amount ≠ "" := by
    intro he
    rw [jsTrim_empty_parse_none he] at hq
    cases hq
  rw [handleAddSpending, if_neg (by simp [htrim, hcat]), hq]
  simp [not_le.mpr hpos, jsAbs_eq_abs]

unseal Rat.add Rat.sub Rat.mul Rat.inv in
/-- Witness for C1: amount `"42.50"` with type spending is sent as `-42.50`,
and amount `"10"` with type income is sent as `+10`. -/
theorem handleAddSpending_signed_amount_witness :
    handleAddSpending ⟨"", "42.50", some 3, "HKD", TxType.spending⟩ "d" =
      AddOutcome.request ⟨"", -(85 / 2 : ℚ), some 3, "HKD", "d"⟩ ∧
    handleAddSpending ⟨"", "10", some 3, "HKD", TxType.income⟩ "d" =
      AddOutcome.request ⟨"", 10, some 3, "HKD", "d"⟩ := by
  constructor
  · have h := handleAddSpending_signed_amount ⟨"", "42.50", some 3, "HKD", TxType.spending⟩ "d"
      (85 / 2 : ℚ) (by decide) (by norm_num) (by decide)
    have habs : |(85 : ℚ) / 2| = 85 / 2 := abs_of_pos (by norm_num)
    rw [h]
    simp only [habs]
    decide
  · have h := handleAddSpending_signed_amount ⟨"", "10", some 3, "HKD", TxType.income⟩ "d"
      (10 : ℚ) (by decide) (by norm_num) (by decide)
    have habs : |(10 : ℚ)| = 10 := abs_of_pos (by norm_num)
    rw [h]
    simp only [habs]
    decide

unseal Rat.add Rat.sub Rat.mul Rat.inv in
/-- C6 counterexample: the form with amount `"10"` (which parses as the
positive number `10`) and the selected category id `0` (not null) is still
rejected with a validation error, because `!newSpending.categoryId` treats
the number `0` as falsy. -/
theorem addValidation_counterexample : ¬ addValidationAsStated := by
  intro h
  have h2 := (h ⟨"", "10", some 0, "HKD", TxType.spending⟩ "d").mp
    ⟨"Please fill in all fields", by decide⟩
  rcases h2 with h2 | h2
  · have h10 : jsParseFloat "10" = some 10 := by decide
    have := h2 10 h10
    norm_num at this
  · simp at h2

/-- C6 (amended): `handleAddSpending` fails with a validation error, issuing
no request, exactly when the amount does not parse as a positive number or
the `categoryId` field is falsy (null, or the number 0, which JS `!` treats
as unselected); when validation passes, the request is issued. -/
theorem handleAddSpending_validation (form : SpendingForm) (now : String) :
    ((∃ msg, handleAddSpending form now = AddOutcome.validationError msg) ↔
      ((∀ q : ℚ, jsParseFloat form.amount = some q → q ≤ 0) ∨
        truthyCategoryId form.categoryId = false)) ∧
    ((∃ q : ℚ, jsParseFloat form.amount = some q ∧ 0 < q) →
      truthyCategoryId form.categoryId = true →
      ∃ body, handleAddSpending form now = AddOutcome.request body) := by
  by_cases hcat : truthyCategoryId form.categoryId = false
  · refine ⟨⟨fun _ => Or.inr hcat, fun _ => ?_⟩, fun _ hcat2 => ?_⟩
    · refine ⟨"Please fill in all fields", ?_⟩
      unfold handleAddSpending
      rw [if_pos (Or.inr hcat)]
    · rw [hcat] at hcat2
      cases hcat2
  · have hcat' : truthyCategoryId form.categoryId = true := by
      cases htc : truthyCategoryId form.categoryId
      · exact absurd htc hcat
      · rfl
    by_cases htrim : jsTrim form.amount = ""
    · have hnone := jsTrim_empty_parse_none htrim
      refine ⟨⟨fun _ => ?_, fun _ => ?_⟩, ?_⟩
      · refine Or.inl fun q hq => ?_
        rw [hnone] at hq
        cases hq
      · refine ⟨"Please fill in all fields", ?_⟩
        unfold handleAddSpending
        rw [if_pos (Or.inl htrim)]
      · rintro ⟨q, hq, _⟩ _
        rw [hnone] at hq
        cases hq
    · have hif : ¬(jsTrim form.amount = "" ∨ truthyCategoryId form.categoryId = false) := by
        rintro (hbad | hbad)
        · exact htrim hbad
        · exact hcat hbad
      cases hq : jsParseFloat form.amount with
      | none =>
        refine ⟨⟨fun _ => ?_, fun _ => ?_⟩, ?_⟩
        · exact Or.inl fun q hq2 => by cases hq2
        · refine ⟨"Please enter a valid amount", ?_⟩
          unfold handleAddSpending
          rw [if_neg hif, hq]
        · rintro ⟨q, hq2, _⟩ _
          cases hq2
      | some q =>
        by_cases hle : q ≤ 0
        · refine ⟨⟨fun _ => ?_, fun _ => ?_⟩, ?_⟩
          · refine Or.inl fun q2 hq2 => ?_
            cases hq2
            exact hle
          · refine ⟨"Please enter a valid amount", ?_⟩
            unfold handleAddSpending
            rw [if_neg hif, hq]
            exact if_pos hle
          · rintro ⟨q2, hq2, hpos⟩ _
            cases hq2
            exact absurd hpos (not_lt.mpr hle)
        · refine ⟨⟨?_, ?_⟩, ?_⟩
          · rintro ⟨msg, hmsg⟩
            have hr : handleAddSpending form now = AddOutcome.request
                { description := jsTrim form.description
                  amount := if form.txType = TxType.income then jsAbs q else -(jsAbs q)
                  categoryId := form.categoryId
                  currency := form.currency
                  dateOfSpending := now } := by
              unfold handleAddSpending
              rw [if_neg hif, hq]
              exact if_neg hle
            rw [hr] at hmsg
            cases hmsg
          · rintro (hall | hfalse)
            · exact absurd (hall q rfl) hle
            · rw [hcat'] at hfalse
              cases hfalse
          · intro _ _
            refine ⟨{ description := jsTrim form.description
                      amount := if form.txType = TxType.income then jsAbs q else -(jsAbs q)
                      categoryId := form.categoryId
                      currency := form.currency
                      dateOfSpending := now }, ?_⟩
            unfold handleAddSpending
            rw [if_neg hif, hq]
            exact if_neg hle

unseal Rat.add Rat.sub Rat.mul Rat.inv in
/-- Witness for C6 (amended): a fully valid form leads to a request. -/
theorem handleAddSpending_validation_witness :
    ∃ body, handleAddSpending ⟨"", "10", some 3, "HKD", TxType.income⟩ "d" =
      AddOutcome.request body :=
  (handleAddSpending_validation ⟨"", "10", some 3, "HKD", TxType.income⟩ "d").2
    ⟨10, by decide, by norm_num⟩ (by decide)

unseal Rat.add Rat.sub Rat.mul Rat.inv in
/-- C7 counterexample: with no category selected (null) and the positive
amount `"5"`, `handleEditSpending` does not fail validation; it issues the
`PUT` request with the `categoryId` field simply omitted. -/
theorem editValidation_counterexample : ¬ editValidationAsStated := by
  intro h
  exact h (some ⟨"s1", 5, "", 1, "2024-01-01", none⟩)
    ⟨"", "5", none, "HKD", TxType.spending⟩
    ⟨"s1", none, some (-5), none, some "HKD", some "2024-01-01"⟩
    (Or.inr rfl) (by decide)

/-- C7 (amended): `handleEditSpending` applies the same sign transform as
add (`+|q|` for income, `-|q|` for spending), but not the same validation:
with an editing target set it aborts, silently and with no network call,
only when the amount does not parse as a number at all; otherwise it issues
the update request, omitting every falsy field (empty trimmed description,
zero signed amount, null-or-zero categoryId, empty currency, empty stored
date) from the payload so the server performs a partial update. -/
theorem handleEditSpending_partial_update (sp : Spending) (form : SpendingForm) :
    (jsParseFloat form.amount = none →
      handleEditSpending (some sp) form = EditOutcome.silentAbort) ∧
    (∀ q : ℚ, jsParseFloat form.amount = some q →
      ∃ body, handleEditSpending (some sp) form = EditOutcome.request body ∧
        body.spendingId = sp.spendingId ∧
        body.amount = (if (if form.txType = TxType.income then |q| else -|q|) = 0 then none
          else some (if form.txType = TxType.income then |q| else -|q|)) ∧
        (body.description = none ↔ jsTrim form.description = "") ∧
        (body.categoryId = none ↔ truthyCategoryId form.categoryId = false) ∧
        (body.currency = none ↔ form.currency = "") ∧
        (body.dateOfSpending = none ↔ sp.dateOfSpending = "")) := by
  constructor
  · intro hnone
    unfold handleEditSpending
    rw [hnone]
  · intro q hq
    refine ⟨{ spendingId := sp.spendingId
              description := if jsTrim form.description = "" then none
                else some (jsTrim form.description)
              amount := if (if form.txType = TxType.income then jsAbs q else -(jsAbs q)) = 0
                then none
                else some (if form.txType = TxType.income then jsAbs q else -(jsAbs q))
              categoryId := match form.categoryId with
                            | none => none
                            | some n => if n = 0 then none else some n
              currency := if form.currency = "" then none else some form.currency
              dateOfSpending := if sp.dateOfSpending = "" then none
                else some sp.dateOfSpending }, ?_, ?_, ?_, ?_, ?_, ?_, ?_⟩
    · unfold handleEditSpending
      rw [hq]
    · rfl
    · simp [jsAbs_eq_abs]
    · by_cases hd : jsTrim form.description = "" <;> simp [hd]
    · cases hcid : form.categoryId with
      | none => simp [truthyCategoryId]
      | some n => by_cases hn : n = 0 <;> simp [truthyCategoryId, hn]
    · by_cases hc : form.currency = "" <;> simp [hc]
    · by_cases hdd : sp.dateOfSpending = "" <;> simp [hdd]

unseal Rat.add Rat.sub Rat.mul Rat.inv in
/-- Witness for C7 (amended), at an editing target with a spending-type form
whose description, category and stored values exercise the omission rules. -/
theorem handleEditSpending_partial_update_witness :
    ∃ body, handleEditSpending (some ⟨"s1", 5, "", 1, "2024-01-01", none⟩)
        ⟨"", "5", none, "HKD", TxType.spending⟩ = EditOutcome.request body ∧
      body.spendingId = "s1" ∧
      body.amount = (if (if TxType.spending = TxType.income then |(5 : ℚ)| else -|(5 : ℚ)|) = 0
        then none
        else some (if TxType.spending = TxType.income then |(5 : ℚ)| else -|(5 : ℚ)|)) ∧
      (body.description = none ↔ jsTrim "" = "") ∧
      (body.categoryId = none ↔ truthyCategoryId none = false) ∧
      (body.currency = none ↔ "HKD" = "") ∧
      (body.dateOfSpending = none ↔ "2024-01-01" = "") :=
  (handleEditSpending_partial_update ⟨"s1", 5, "", 1, "2024-01-01", none⟩
    ⟨"", "5", none, "HKD", TxType.spending⟩).2 5 (by decide)

/-- C2 counterexample: even with a succeeding DELETE and reload, the first
observable action of `handleDeleteSpending` is the DELETE request, not the
optimistic local removal the claim puts first. -/
theorem deleteOrder_counterexample : ¬ deleteAsStated := by
  intro h
  exact absurd (h ⟨true, some []⟩ [] "s1").1 (by decide)

/-- C2 (amended): `handleDeleteSpending` issues the DELETE request first;
only on a successful response does it remove the spending from the local
list and then reload from the server, so on failure the list is left
untouched and no reload happens.  After a successful reload the list is the
server's list, which no longer contains the deleted spending whenever the
server dropped it; if the reload itself fails, the locally filtered list
remains, which also no longer contains the deleted spending. -/
theorem handleDeleteSpending_flow (env : DeleteEnv) (spendings : List Spending)
    (id : String) :
    (env.deleteOk = true →
      (handleDeleteSpending env spendings id).2 =
        [DeleteEvent.deleteRequest id, DeleteEvent.localRemove id, DeleteEvent.reload] ∧
      (env.reloadResult = none →
        (handleDeleteSpending env spendings id).1 =
          spendings.filter (fun s => s.spendingId ≠ id) ∧
        ∀ s ∈ (handleDeleteSpending env spendings id).1, s.spendingId ≠ id) ∧
      (∀ server, env.reloadResult = some server →
        (handleDeleteSpending env spendings id).1 = server ∧
        ((∀ s ∈ server, s.spendingId ≠ id) →
          ∀ s ∈ (handleDeleteSpending env spendings id).1, s.spendingId ≠ id))) ∧
    (env.deleteOk = false →
      (handleDeleteSpending env spendings id).2 = [DeleteEvent.deleteRequest id] ∧
      (handleDeleteSpending env spendings id).1 = spendings) := by
  constructor
  · intro hok
    refine ⟨?_, ?_, ?_⟩
    · cases hr : env.reloadResult <;> simp [handleDeleteSpending, hok, hr]
    · intro hr
      constructor
      · simp [handleDeleteSpending, hok, hr]
      · intro s hs
        simp [handleDeleteSpending, hok, hr, List.mem_filter] at hs
        exact hs.2
    · intro server hr
      constructor
      · simp [handleDeleteSpending, hok, hr]
      · intro hserver s hs
        simp [handleDeleteSpending, hok, hr] at hs
        exact hserver s hs
  · intro hok
    simp [handleDeleteSpending, hok]

/-- Witness for C2 (amended): a successful delete of `"a"` from a two-element
list with a succeeding reload that returns the remaining spending. -/
theorem handleDeleteSpending_flow_witness :
    (handleDeleteSpending ⟨true, some [⟨"b", 7, "", 1, "d", none⟩]⟩
        [⟨"a", 5, "", 1, "d", none⟩, ⟨"b", 7, "", 1, "d", none⟩] "a").2 =
      [DeleteEvent.deleteRequest "a", DeleteEvent.localRemove "a", DeleteEvent.reload] ∧
    (handleDeleteSpending ⟨true, some [⟨"b", 7, "", 1, "d", none⟩]⟩
        [⟨"a", 5, "", 1, "d", none⟩, ⟨"b", 7, "", 1, "d", none⟩] "a").1 =
      [⟨"b", 7, "", 1, "d", none⟩] := by
  have h := (handleDeleteSpending_flow ⟨true, some [⟨"b", 7, "", 1, "d", none⟩]⟩
    [⟨"a", 5, "", 1, "d", none⟩, ⟨"b", 7, "", 1, "d", none⟩] "a").1 rfl
  exact ⟨h.1, (h.2.2 [⟨"b", 7, "", 1, "d", none⟩] rfl).1⟩

unseal Rat.add Rat.sub Rat.mul Rat.inv in
/-- C3 counterexample: with two distinct spendings sharing the amount `5`,
the stable sort leaves both directions in the original order, so the
descending result is not the reverse of the ascending one. -/
theorem sortAmountReverse_counterexample : ¬ sortAmountReverseAsStated := by
  intro h
  exact absurd (h [] (fun _ => 0)
    [⟨"a", 5, "", 1, "d1", none⟩, ⟨"b", 5, "", 1, "d2", none⟩]) (by decide)

/-- C3 (amended): sorting by amount ascending and by amount descending always
yields lists with exactly the same elements; when no two spendings share an
amount, the two results are element-for-element reverses of each other (with
ties, stability keeps equal-amount elements in their original order in both
results, so they need not be reverses). -/
theorem sortAmount_asc_desc_reverse (cats : List Category) (gt : String → Int)
    (l : List Spending) :
    (getSortedSpendings cats gt SortOption.amount SortDirection.desc l).Perm
      (getSortedSpendings cats gt SortOption.amount SortDirection.asc l) ∧
    (l.Pairwise (fun a b => a.amount ≠ b.amount) →
      getSortedSpendings cats gt SortOption.amount SortDirection.desc l =
        (getSortedSpendings cats gt SortOption.amount SortDirection.asc l).reverse) := by
  have hdp : (getSortedSpendings cats gt SortOption.amount SortDirection.desc l).Perm l :=
    stableSort_perm _ l
  have hap : (getSortedSpendings cats gt SortOption.amount SortDirection.asc l).Perm l :=
    stableSort_perm _ l
  constructor
  · exact hdp.trans hap.symm
  · intro hdist
    have hdsort := pairwise_stableSort
      (spendingComparator cats gt SortOption.amount SortDirection.desc)
      (spendingComparator_skew cats gt _ _) (spendingComparator_trans cats gt _ _) l
    have hasort := pairwise_stableSort
      (spendingComparator cats gt SortOption.amount SortDirection.asc)
      (spendingComparator_skew cats gt _ _) (spendingComparator_trans cats gt _ _) l
    have hdle : (getSortedSpendings cats gt SortOption.amount SortDirection.desc l).Pairwise
        (fun x y => y.amount ≤ x.amount) := by
      refine hdsort.imp ?_
      intro a b hab
      simp [spendingComparator] at hab
      linarith
    have hale : (getSortedSpendings cats gt SortOption.amount SortDirection.asc l).Pairwise
        (fun x y => x.amount ≤ y.amount) := by
      refine hasort.imp ?_
      intro a b hab
      simp [spendingComparator] at hab
      linarith
    have hddist := (hdp.pairwise_iff fun hab => Ne.symm hab).mpr hdist
    have hadist := (hap.pairwise_iff fun hab => Ne.symm hab).mpr hdist
    have hdlt : (getSortedSpendings cats gt SortOption.amount SortDirection.desc l).Pairwise
        (fun x y => y.amount < x.amount) := by
      refine (hdle.and hddist).imp ?_
      rintro a b ⟨hle, hne⟩
      exact lt_of_le_of_ne hle hne.symm
    have halt : (getSortedSpendings cats gt SortOption.amount SortDirection.asc l).Pairwise
        (fun x y => x.amount < y.amount) := by
      refine (hale.and hadist).imp ?_
      rintro a b ⟨hle, hne⟩
      exact lt_of_le_of_ne hle hne
    have hrev : ((getSortedSpendings cats gt SortOption.amount SortDirection.asc l).reverse).Pairwise
        (fun x y => y.amount < x.amount) := by
      rw [List.pairwise_reverse]
      exact halt
    have hperm : (getSortedSpendings cats gt SortOption.amount SortDirection.desc l).Perm
        ((getSortedSpendings cats gt SortOption.amount SortDirection.asc l).reverse) :=
      hdp.trans (hap.symm.trans (List.reverse_perm _).symm)
    haveI : IsAntisymm Spending (fun x y => y.amount < x.amount) :=
      ⟨fun a b h1 h2 => absurd (lt_trans h1 h2) (lt_irrefl _)⟩
    have hdlt' : List.Sorted (fun x y : Spending => y.amount < x.amount)
        (getSortedSpendings cats gt SortOption.amount SortDirection.desc l) := hdlt
    have hrev' : List.Sorted (fun x y : Spending => y.amount < x.amount)
        ((getSortedSpendings cats gt SortOption.amount SortDirection.asc l).reverse) := hrev
    exact List.eq_of_perm_of_sorted hperm hdlt' hrev'

unseal Rat.add Rat.sub Rat.mul Rat.inv in
/-- Witness for C3 (amended) on a two-element list with distinct amounts. -/
theorem sortAmount_asc_desc_reverse_witness :
    getSortedSpendings [] (fun _ => 0) SortOption.amount SortDirection.desc
        [⟨"a", 5, "", 1, "d1", none⟩, ⟨"b", 7, "", 1, "d2", none⟩] =
      (getSortedSpendings [] (fun _ => 0) SortOption.amount SortDirection.asc
        [⟨"a", 5, "", 1, "d1", none⟩, ⟨"b", 7, "", 1, "d2", none⟩]).reverse :=
  (sortAmount_asc_desc_reverse [] (fun _ => 0)
    [⟨"a", 5, "", 1, "d1", none⟩, ⟨"b", 7, "", 1, "d2", none⟩]).2 (by decide)

/-- C8: `getSortedSpendings` is a pure function of the stored list: it
returns a new list that is a permutation of the stored list for every key
and direction (the embedding returns a fresh list and, being a function,
cannot mutate its argument, mirroring the copy-then-sort of the source);
when the key is `category`, the result is ordered by lexicographic
comparison of the resolved category display names, ascending or descending
according to the direction. -/
theorem getSortedSpendings_perm_and_category_order (cats : List Category)
    (gt : String → Int) (key : SortOption) (dir : SortDirection) (l : List Spending) :
    (getSortedSpendings cats gt key dir l).Perm l ∧
    (key = SortOption.category → dir = SortDirection.asc →
      (getSortedSpendings cats gt key dir l).Pairwise
        (fun a b => getCategoryName cats a.categoryId ≤ getCategoryName cats b.categoryId)) ∧
    (key = SortOption.category → dir = SortDirection.desc →
      (getSortedSpendings cats gt key dir l).Pairwise
        (fun a b => getCategoryName cats b.categoryId ≤ getCategoryName cats a.categoryId)) := by
  refine ⟨stableSort_perm _ l, ?_, ?_⟩
  · rintro rfl rfl
    have hs := pairwise_stableSort
      (spendingComparator cats gt SortOption.category SortDirection.asc)
      (spendingComparator_skew cats gt _ _) (spendingComparator_trans cats gt _ _) l
    refine hs.imp ?_
    intro a b hab
    simp only [spendingComparator] at hab
    exact (localeCompare_nonpos_iff _ _).mp hab
  · rintro rfl rfl
    have hs := pairwise_stableSort
      (spendingComparator cats gt SortOption.category SortDirection.desc)
      (spendingComparator_skew cats gt _ _) (spendingComparator_trans cats gt _ _) l
    refine hs.imp ?_
    intro a b hab
    simp only [spendingComparator] at hab
    rw [neg_nonpos] at hab
    exact (localeCompare_nonneg_iff _ _).mp hab

/-- Witness for C8 on a two-element list sorted by category name. -/
theorem getSortedSpendings_perm_and_category_order_witness :
    (getSortedSpendings [⟨1, "Food"⟩, ⟨2, "Transport"⟩] (fun _ => 0)
        SortOption.category SortDirection.asc
        [⟨"a", 5, "", 2, "d1", none⟩, ⟨"b", 7, "", 1, "d2", none⟩]).Perm
      [⟨"a", 5, "", 2, "d1", none⟩, ⟨"b", 7, "", 1, "d2", none⟩] ∧
    (getSortedSpendings [⟨1, "Food"⟩, ⟨2, "Transport"⟩] (fun _ => 0)
        SortOption.category SortDirection.asc
        [⟨"a", 5, "", 2, "d1", none⟩, ⟨"b", 7, "", 1, "d2", none⟩]).Pairwise
      (fun a b => getCategoryName [⟨1, "Food"⟩, ⟨2, "Transport"⟩] a.categoryId ≤
        getCategoryName [⟨1, "Food"⟩, ⟨2, "Transport"⟩] b.categoryId) :=
  ⟨(getSortedSpendings_perm_and_category_order [⟨1, "Food"⟩, ⟨2, "Transport"⟩] (fun _ => 0)
      SortOption.category SortDirection.asc
      [⟨"a", 5, "", 2, "d1", none⟩, ⟨"b", 7, "", 1, "d2", none⟩]).1,
    (getSortedSpendings_perm_and_category_order [⟨1, "Food"⟩, ⟨2, "Transport"⟩] (fun _ => 0)
      SortOption.category SortDirection.asc
      [⟨"a", 5, "", 2, "d1", none⟩, ⟨"b", 7, "", 1, "d2", none⟩]).2.1 rfl rfl⟩

/-- C10: when a spending's `categoryId` matches no category in the current
list, `getCategoryName` resolves it to the fallback string `"Unknown"`
rather than failing, and that fallback is exactly the comparison key for
category sorting: adding a real category named `"Unknown"` with the dangling
id (at the end of the list, so no other resolution changes) leaves the
sorted output of every list unchanged in both directions. -/
theorem getCategoryName_unknown_fallback (cats : List Category) (id : Int)
    (gt : String → Int) (dir : SortDirection) (l : List Spending)
    (h : ∀ c ∈ cats, c.categoryId ≠ id) :
    getCategoryName cats id = "Unknown" ∧
    getSortedSpendings (cats ++ [⟨id, "Unknown"⟩]) gt SortOption.category dir l =
      getSortedSpendings cats gt SortOption.category dir l := by
  have hnone : cats.find? (fun cat => cat.categoryId = id) = none := by
    rw [List.find?_eq_none]
    intro c hc
    simp [h c hc]
  constructor
  · unfold getCategoryName
    rw [hnone]
  · have hname : ∀ cid, getCategoryName (cats ++ [⟨id, "Unknown"⟩]) cid =
        getCategoryName cats cid := by
      intro cid
      unfold getCategoryName
      rw [List.find?_append]
      cases hfind : cats.find? (fun cat => cat.categoryId = cid) with
      | some c => simp
      | none =>
        by_cases hc : id = cid
        · subst hc
          simp [List.find?]
        · simp [List.find?, hc]
    have hcomp : spendingComparator (cats ++ [⟨id, "Unknown"⟩]) gt SortOption.category dir =
        spendingComparator cats gt SortOption.category dir := by
      funext a b
      simp only [spendingComparator, hname]
    rw [getSortedSpendings, getSortedSpendings, hcomp]

/-- Witness for C10: a spending referencing the deleted category id 2
resolves to `"Unknown"` and sorts identically with or without a real
`"Unknown"` category appended. -/
theorem getCategoryName_unknown_fallback_witness :
    getCategoryName [⟨1, "Food"⟩] 2 = "Unknown" ∧
    getSortedSpendings [⟨1, "Food"⟩, ⟨2, "Unknown"⟩] (fun _ => 0)
        SortOption.category SortDirection.asc
        [⟨"a", 5, "", 2, "d1", none⟩, ⟨"b", 7, "", 1, "d2", none⟩] =
      getSortedSpendings [⟨1, "Food"⟩] (fun _ => 0)
        SortOption.category SortDirection.asc
        [⟨"a", 5, "", 2, "d1", none⟩, ⟨"b", 7, "", 1, "d2", none⟩] :=
  getCategoryName_unknown_fallback [⟨1, "Food"⟩] 2 (fun _ => 0) SortDirection.asc
    [⟨"a", 5, "", 2, "d1", none⟩, ⟨"b", 7, "", 1, "d2", none⟩] (by decide)
